import Mathlib

/-!
Verification development for the dog-crash-server repository.

JavaScript numbers are modelled as rationals (ℚ); all inputs exercised here
are exactly representable, and every arithmetic step performed by the code on
them (addition, multiplication, `Math.max`, `Math.floor`, comparison) is exact
at those inputs, so the rational model agrees with the JS evaluation.
Maps (`new Map()`) are modelled as association lists in insertion order,
matching the iteration order of JS `Map`.  `undefined` is modelled with
`Option`.  Thrown exceptions are modelled with `Except`.
-/

set_option maxRecDepth 8000

namespace DogCrash

/-!
The standard `ℚ` field operations are `@[irreducible]` in this toolchain, so
concrete states could not be evaluated through them by `decide`.  The JS
arithmetic is therefore modelled by the kernel-reducible operations below,
each proved equal to the corresponding field operation on `ℚ`
(`jsAdd_eq` and friends), so nothing is lost semantically.
-/

/-- Addition of JS numbers (equals `a + b` on `ℚ`, see `jsAdd_eq`). -/
def jsAdd (a b : ℚ) : ℚ := mkRat (a.num * b.den + b.num * a.den) (a.den * b.den)

/-- Multiplication of JS numbers (equals `a * b` on `ℚ`, see `jsMul_eq`). -/
def jsMul (a b : ℚ) : ℚ := mkRat (a.num * b.num) (a.den * b.den)

/-- Negation of JS numbers. -/
def jsNeg (a : ℚ) : ℚ := -a

/-- Subtraction of JS numbers (equals `a - b` on `ℚ`, see `jsSub_eq`). -/
def jsSub (a b : ℚ) : ℚ := jsAdd a (jsNeg b)

/-- Division of JS numbers (equals `a / b` on `ℚ`, see `jsDiv_eq`; the
division-by-zero case is never reached by the modelled code, which guards
every division by a positivity check). -/
def jsDiv (a b : ℚ) : ℚ :=
  if b.num < 0 then mkRat (-(a.num * b.den)) (a.den * b.num.natAbs)
  else mkRat (a.num * b.den) (a.den * b.num.natAbs)

/-- `Math.max(a, b)` on (rational-modelled) JS numbers. -/
def jsMax (a b : ℚ) : ℚ := if a ≤ b then b else a

/-- `Math.floor` on (rational-modelled) JS numbers, as an integer. -/
def jsFloor (q : ℚ) : ℤ := q.floor

/-- A cached game session, as built by `GameSessionCache.addSession`
(src/services/gameSessionCache.js, lines 72-78): the raw session data plus the
stamped `raceId`, `timestamp`, derived `netProfit` and generated `id`. -/
structure Session where
  userId : String
  betAmount : ℚ
  winAmount : ℚ
  crashMultiplier : ℚ
  isWin : Bool
  raceId : String
  timestamp : ℚ
  netProfit : ℚ
  id : String
deriving DecidableEq, Repr

/-- The raw session data handed to `addSession` (before stamping). -/
structure SessionInput where
  userId : String
  betAmount : ℚ
  winAmount : ℚ
  crashMultiplier : ℚ
  isWin : Bool
deriving DecidableEq, Repr

/-- One row of the per-race participant table
(`updateRaceParticipant`, src/services/gameSessionCache.js lines 109-118). -/
structure Participant where
  raceId : String
  userId : String
  totalBetAmount : ℚ
  totalWinAmount : ℚ
  netProfit : ℚ
  contributionToPool : ℚ
  sessionCount : ℕ
  lastUpdateTime : ℚ
deriving DecidableEq, Repr

/-- The shape shared by both sort comparators of the cache: a numeric key
descending, ties broken by `userId` ascending (`localeCompare`).
`keyLe key a b = true` means `a` sorts no later than `b`. -/
def keyLe (key : Participant → ℚ) (a b : Participant) : Bool :=
  decide (key b < key a) ||
    (key a == key b && decide (a.userId ≤ b.userId))

/-- The comparator of `maintainTop1000` (gameSessionCache.js lines 262-267):
`netProfit` descending, ties by `userId` ascending. -/
def netLe : Participant → Participant → Bool :=
  keyLe (·.netProfit)

/-- The comparator of `getRaceLeaderboard` (gameSessionCache.js lines 291-296):
`contributionToPool` descending, ties by `userId` ascending. -/
def contribLe : Participant → Participant → Bool :=
  keyLe (·.contributionToPool)

/-- Insert into a list sorted by `le` (used to model `Array.prototype.sort`
with the two comparators above; the comparators are total preorders, for which
insertion sort produces the same ordering as the JS sort). -/
def sortedInsert (le : Participant → Participant → Bool) (a : Participant) :
    List Participant → List Participant
  | [] => [a]
  | b :: l => if le a b then a :: b :: l else b :: sortedInsert le a l

/-- Sort a participant list by the comparator `le`. -/
def sortBy (le : Participant → Participant → Bool) (l : List Participant) :
    List Participant :=
  l.foldr (sortedInsert le) []

/-- `maintainTop1000` (gameSessionCache.js lines 253-278): when the table
exceeds 1000 rows, sort by `netProfit` descending (tie `userId` ascending) and
delete every row ranked 1001 or beyond from the table (the table keeps its own
insertion order; deletion is by `userId`). -/
def maintainTop1000 (participants : List Participant) : List Participant :=
  if participants.length ≤ 1000 then participants
  else
    participants.filter fun p =>
      !(((sortBy netLe participants).drop 1000).any fun q => q.userId == p.userId)

/-- `getRaceLeaderboard` without the rank annotation
(gameSessionCache.js lines 283-304): sort by `contributionToPool` descending
(tie `userId` ascending) and truncate to `limit`.  The rank field assigned by
the source is `index + 1`; the consumers modelled here (`calculatePrizeDistribution`)
address entries by position, so the annotation is kept separate. -/
def getRaceLeaderboardSorted (participants : List Participant) (limit : ℕ) :
    List Participant :=
  (sortBy contribLe participants).take limit

/-- `getRaceLeaderboard` with the `rank = index + 1` annotation. -/
def getRaceLeaderboard (participants : List Participant) (limit : ℕ) :
    List (Participant × ℕ) :=
  (getRaceLeaderboardSorted participants limit).enum.map fun e => (e.2, e.1 + 1)

/-- Result of `calculateRacePrizePool` (gameSessionCache.js lines 407-434). -/
structure PrizePool where
  totalPool : ℚ
  contributedAmount : ℚ
  minGuarantee : ℚ
  shouldDistributePrizes : Bool
  participants : ℕ
deriving DecidableEq, Repr

/-- `calculateRacePrizePool` (gameSessionCache.js lines 407-434).  The argument
is the participant table of the race (`none` when the race is unknown). -/
def calculateRacePrizePool (participants : Option (List Participant)) : PrizePool :=
  match participants with
  | none =>
      { totalPool := 0, contributedAmount := 0, minGuarantee := 50000
        shouldDistributePrizes := false, participants := 0 }
  | some ps =>
      let contributedAmount := ps.foldl (fun sum p => jsAdd sum p.contributionToPool) 0
      { totalPool := jsMax contributedAmount 50000
        contributedAmount := contributedAmount
        minGuarantee := 50000
        shouldDistributePrizes := decide (0 < contributedAmount)
        participants := ps.length }

/-- One entry of the prize distribution
(gameSessionCache.js lines 470-475 and 490-495). -/
structure PrizeEntry where
  userId : String
  rank : ℕ
  prizeAmount : ℤ
  percentage : ℚ
deriving DecidableEq, Repr

/-- Result of `calculatePrizeDistribution`. -/
structure PrizeDistribution where
  distributions : List PrizeEntry
  totalDistributed : ℤ
  prizePool : PrizePool
deriving DecidableEq, Repr

/-- The rank 1-3 part of `calculatePrizeDistribution`
(gameSessionCache.js lines 456-479): iterate the rules
`[(1, 0.50), (2, 0.25), (3, 0.11)]`, emitting an entry for each rule whose
rank is within the leaderboard, with amount `Math.floor(totalPool × pct)`. -/
def top3Entries (totalPool : ℚ) (leaderboard : List Participant) : List PrizeEntry :=
  match leaderboard with
  | [] => []
  | [a] => [⟨a.userId, 1, jsFloor (jsMul totalPool (mkRat 1 2)), mkRat 1 2⟩]
  | [a, b] => [⟨a.userId, 1, jsFloor (jsMul totalPool (mkRat 1 2)), mkRat 1 2⟩,
               ⟨b.userId, 2, jsFloor (jsMul totalPool (mkRat 1 4)), mkRat 1 4⟩]
  | a :: b :: c :: _ =>
      [⟨a.userId, 1, jsFloor (jsMul totalPool (mkRat 1 2)), mkRat 1 2⟩,
       ⟨b.userId, 2, jsFloor (jsMul totalPool (mkRat 1 4)), mkRat 1 4⟩,
       ⟨c.userId, 3, jsFloor (jsMul totalPool (mkRat 11 100)), mkRat 11 100⟩]

/-- The rank 4-10 part of `calculatePrizeDistribution`
(gameSessionCache.js lines 481-499): `leaderboard.slice(3, 10)` share
`Math.floor(totalPool × 0.14)` equally, each amount floored; each entry's
percentage is recomputed as `prizePerUser / totalPool`. -/
def rank4to10Entries (totalPool : ℚ) (leaderboard : List Participant) : List PrizeEntry :=
  let remainingAmount : ℤ := jsFloor (jsMul totalPool (mkRat 14 100))
  let rank4to10 := (leaderboard.drop 3).take 7
  if rank4to10.length = 0 then []
  else
    let prizePerUser : ℤ := jsFloor (jsDiv (mkRat remainingAmount 1) (mkRat rank4to10.length 1))
    rank4to10.enum.map fun e =>
      ⟨e.2.userId, e.1 + 4, prizePerUser, jsDiv (mkRat prizePerUser 1) totalPool⟩

/-- `calculatePrizeDistribution` (gameSessionCache.js lines 439-506). -/
def calculatePrizeDistribution (participants : Option (List Participant)) :
    PrizeDistribution :=
  let prizePool := calculateRacePrizePool participants
  let leaderboard :=
    match participants with
    | none => []
    | some ps => getRaceLeaderboardSorted ps 1000
  if !prizePool.shouldDistributePrizes || leaderboard.length = 0 then
    { distributions := [], totalDistributed := 0, prizePool := prizePool }
  else
    let totalPool := prizePool.totalPool
    let distributions :=
      top3Entries totalPool leaderboard ++ rank4to10Entries totalPool leaderboard
    { distributions := distributions
      totalDistributed := (distributions.map (·.prizeAmount)).foldl (· + ·) 0
      prizePool := prizePool }

/-! ### The cache state and session ingest -/

/-- A JS `Map` as an association list in insertion order.  `mapSet` models
`Map.prototype.set`: replace in place when the key exists, append otherwise. -/
def mapSet {β : Type} : List (String × β) → String → β → List (String × β)
  | [], k, v => [(k, v)]
  | e :: rest, k, v => if e.1 == k then (k, v) :: rest else e :: mapSet rest k v

/-- A JS `Map.prototype.get`, as an association-list lookup. -/
def mapLookup {β : Type} : List (String × β) → String → Option β
  | [], _ => none
  | e :: rest, k => if e.1 == k then some e.2 else mapLookup rest k

/-- The per-race session store (gameSessionCache.js lines 47-52):
`userSessions : Map<userId, Session[]>` plus the race's `globalSessions`
append-only list. -/
structure RaceData where
  userSessions : List (String × List Session)
  globalSessions : List Session
deriving DecidableEq, Repr

/-- The in-memory state of `GameSessionCache` (constructor, gameSessionCache.js
lines 13-22).  The field `globalSessions` models the JS property
`this.globalSessions` read by `getGlobalStats` and `getRecentCrashes`: the
constructor never declares it and no method ever assigns it, so it is `none`
(`undefined`) in every reachable state. -/
structure GameSessionCache where
  raceSessions : List (String × RaceData)
  raceParticipants : List (String × List Participant)
  currentRaceId : Option String
  pendingSaves : List Session
  globalSessions : Option (List Session)
deriving DecidableEq, Repr

/-- The freshly constructed cache (gameSessionCache.js lines 13-22). -/
def initialCache : GameSessionCache :=
  { raceSessions := [], raceParticipants := [], currentRaceId := none
    pendingSaves := [], globalSessions := none }

/-- `setCurrentRace` (gameSessionCache.js lines 43-59). -/
def setCurrentRace (c : GameSessionCache) (raceId : String) : GameSessionCache :=
  let c := { c with currentRaceId := some raceId }
  let c :=
    if (mapLookup c.raceSessions raceId).isSome then c
    else { c with raceSessions :=
            mapSet c.raceSessions raceId ⟨[], []⟩ }
  if (mapLookup c.raceParticipants raceId).isSome then c
  else { c with raceParticipants := mapSet c.raceParticipants raceId [] }

/-- The fresh participant row created by `updateRaceParticipant`
(gameSessionCache.js lines 109-118). -/
def freshParticipant (raceId userId : String) (now : ℚ) : Participant :=
  { raceId := raceId, userId := userId, totalBetAmount := 0, totalWinAmount := 0
    netProfit := 0, contributionToPool := 0, sessionCount := 0
    lastUpdateTime := now }

/-- The in-place mutation of the caller's row by `updateRaceParticipant`
(gameSessionCache.js lines 121-127): add `betAmount` and `winAmount`, add the
session's derived `netProfit`, add `max(0, winAmount) × 0.01` to
`contributionToPool`, and bump `sessionCount`. -/
def bumpParticipant (p : Participant) (s : Session) (now : ℚ) : Participant :=
  { p with
    totalBetAmount := jsAdd p.totalBetAmount s.betAmount
    totalWinAmount := jsAdd p.totalWinAmount s.winAmount
    netProfit := jsAdd p.netProfit s.netProfit
    contributionToPool :=
      jsAdd p.contributionToPool (jsMul (jsMax 0 s.winAmount) (mkRat 1 100))
    sessionCount := p.sessionCount + 1
    lastUpdateTime := now }

/-- The table transformation of `updateRaceParticipant` before the Top-1000
cap (gameSessionCache.js lines 106-127): create the row if absent (appended,
as JS `Map.set` appends new keys), then mutate the caller's row in place. -/
def applySessionToParticipants (raceId : String) (participants : List Participant)
    (userId : String) (s : Session) (now : ℚ) : List Participant :=
  let ps :=
    if participants.any fun p => p.userId == userId then participants
    else participants ++ [freshParticipant raceId userId now]
  ps.map fun p => if p.userId == userId then bumpParticipant p s now else p

/-- `updateRaceParticipant` (gameSessionCache.js lines 105-133): update the
caller's row, then run the Top-1000 maintenance. -/
def updateRaceParticipant (raceId : String) (participants : List Participant)
    (userId : String) (s : Session) (now : ℚ) : List Participant :=
  maintainTop1000 (applySessionToParticipants raceId participants userId s now)

/-- The session object built by `addSession` (gameSessionCache.js lines
72-78): the raw data plus the stamped `raceId`, `timestamp`, the derived
`netProfit = max(0, winAmount - betAmount)` and the generated id. -/
def mkSession (raceId : String) (input : SessionInput) (now : ℚ)
    (rnd : String) : Session :=
  { userId := input.userId, betAmount := input.betAmount
    winAmount := input.winAmount, crashMultiplier := input.crashMultiplier
    isWin := input.isWin, raceId := raceId, timestamp := now
    netProfit :=
      if 0 < jsSub input.winAmount input.betAmount
      then jsSub input.winAmount input.betAmount else 0
    id := input.userId ++ "_" ++ toString now.num ++ "_" ++ rnd }

/-- `addSession` (gameSessionCache.js lines 64-100).  `now` is `Date.now()` and
`rnd` the random id suffix.  Returns the stored session (`none` when no
current race is set, in which case the cache is untouched) and the new state. -/
def addSession (c : GameSessionCache) (input : SessionInput) (now : ℚ)
    (rnd : String) : Option Session × GameSessionCache :=
  match c.currentRaceId with
  | none => (none, c)
  | some raceId =>
      let session := mkSession raceId input now rnd
      let raceData := (mapLookup c.raceSessions raceId).getD ⟨[], []⟩
      let userList := (mapLookup raceData.userSessions input.userId).getD []
      let raceData' : RaceData :=
        { userSessions :=
            mapSet raceData.userSessions input.userId (userList ++ [session])
          globalSessions := raceData.globalSessions ++ [session] }
      let participants := (mapLookup c.raceParticipants raceId).getD []
      let participants' :=
        updateRaceParticipant raceId participants input.userId session now
      (some session,
        { c with
          raceSessions := mapSet c.raceSessions raceId raceData'
          raceParticipants := mapSet c.raceParticipants raceId participants'
          pendingSaves := c.pendingSaves ++ [session] })

/-- The participant table a cache holds for a race (empty when unknown). -/
def participantsOf (c : GameSessionCache) (raceId : String) : List Participant :=
  (mapLookup c.raceParticipants raceId).getD []

/-- The participant tables are keyed by `userId`: a table is well-formed when
no two rows share a `userId` (JS `Map` keys are unique). -/
def keysNodup (l : List Participant) : Prop :=
  (l.map fun p => p.userId).Nodup

instance (l : List Participant) : Decidable (keysNodup l) := by
  unfold keysNodup
  infer_instance

/-! ### The S2 leaderboard of claim C1 -/

/-- A participant row carrying only the data relevant to prize ranking. -/
def mkContribRow (raceId userId : String) (contribution : ℚ) : Participant :=
  { raceId := raceId, userId := userId, totalBetAmount := 0, totalWinAmount := 0
    netProfit := 0, contributionToPool := contribution, sessionCount := 1
    lastUpdateTime := 0 }

/-- The S2 participant table: contributions a=1000, b=500, c=220, d=120, e=100,
f=80, g=60, h=40, i=30, j=20, k=10. -/
def s2Table : List Participant :=
  [mkContribRow "race_s2" "a" 1000, mkContribRow "race_s2" "b" 500,
   mkContribRow "race_s2" "c" 220, mkContribRow "race_s2" "d" 120,
   mkContribRow "race_s2" "e" 100, mkContribRow "race_s2" "f" 80,
   mkContribRow "race_s2" "g" 60, mkContribRow "race_s2" "h" 40,
   mkContribRow "race_s2" "i" 30, mkContribRow "race_s2" "j" 20,
   mkContribRow "race_s2" "k" 10]

/-! ### A 1001-row participant table (for exercising the Top-1000 cap) -/

/-- Distinct user ids: `cxUid i` is the string of `i + 1` letters `u`. -/
def cxUid (i : ℕ) : String := String.mk (List.replicate (i + 1) 'u')

/-- Row `i` of the 1001-row table: `netProfit` strictly decreasing in `i`,
while row 1000 has by far the largest `contributionToPool`. -/
def bigP (i : ℕ) : Participant :=
  { raceId := "race_cx", userId := cxUid i
    totalBetAmount := 0, totalWinAmount := 0
    netProfit := mkRat (2000 - (i : ℤ)) 1
    contributionToPool :=
      if i = 1000 then mkRat 1000000 1 else mkRat (1000 - (i : ℤ)) 1
    sessionCount := 1, lastUpdateTime := 0 }

/-- The 1001-row participant table. -/
def bigTable : List Participant := (List.range 1001).map bigP

/-- `Map.prototype.get` over the participant table by `userId` (the row
`participants.get(userId)` of `updateRaceParticipant`). -/
def findRow (l : List Participant) (u : String) : Option Participant :=
  l.find? fun p => p.userId == u

/-- The participant-row invariant of the spec (section 8, invariant 1):
nonnegative pool contribution and net profit, and at least one session. -/
def rowInv (p : Participant) : Prop :=
  0 ≤ p.contributionToPool ∧ 0 ≤ p.netProfit ∧ 1 ≤ p.sessionCount

instance (p : Participant) : Decidable (rowInv p) := by
  unfold rowInv
  infer_instance

/-! ### The per-user next-round override store (routes/game.js,
src/unnamed/part_001) -/

/-- A `UserGameSettings` record (src/models/UserGameSettings.js): the pending
per-user override `(nextBetAmount, nextCrashMultiplier)`. -/
structure UserGameSettings where
  userId : String
  nextBetAmount : ℚ
  nextCrashMultiplier : ℚ
deriving DecidableEq, Repr

/-- Response of `GET /api/game/ai-crash-multiplier/:userId/:betAmount`:
either a 400 validation failure or a 200 payload with the multiplier and the
`isUserCustom` flag. -/
inductive AiResponse where
  | invalid (status : ℕ)
  | ok (crashMultiplier : ℚ) (isUserCustom : Bool)
deriving DecidableEq, Repr

/-- The HTTP status of an `AiResponse`. -/
def AiResponse.status : AiResponse → ℕ
  | .invalid s => s
  | .ok _ _ => 200

/-- The handler of `GET /api/game/ai-crash-multiplier/:userId/:betAmount`
(src/unnamed/part_001, lines 491-582).  `store` is the `UserGameSettings`
collection; `lookupFails` injects a failure of `UserGameSettings.findOne`
(the `dbError` catch, lines 547-551) and `deleteFails` a failure of
`UserGameSettings.deleteOne` (the `deleteError` catch, lines 529-534, which
is swallowed); `rand` is the value `generateCrashMultiplier()` would return.
Returns the response and the resulting store. -/
def aiCrashMultiplierHandler (store : List UserGameSettings)
    (lookupFails deleteFails : Bool) (rand : ℚ)
    (userId : String) (betAmount : ℚ) : AiResponse × List UserGameSettings :=
  if userId.length < 8 ∨ 50 < userId.length then (.invalid 400, store)
  else if betAmount < 1 ∨ 999999999 < betAmount then (.invalid 400, store)
  else if lookupFails then (.ok rand false, store)
  else
    match store.find? fun t => t.userId == userId with
    | none => (.ok rand false, store)
    | some settings =>
        if 0 < settings.nextCrashMultiplier ∧ 0 < settings.nextBetAmount then
          if betAmount = settings.nextBetAmount then
            (.ok settings.nextCrashMultiplier true,
             if deleteFails then store
             else store.eraseP fun t => t.userId == userId)
          else (.ok rand false, store)
        else (.ok rand false, store)

/-! ### The round orchestrator (src/services/gameCountdownManager.js) -/

/-- The phase of `currentState.phase` (gameCountdownManager.js line 38). -/
inductive Phase where
  | idle
  | betting
  | gaming
deriving DecidableEq, Repr

/-- A pending `setTimeout` callback of the manager: the end of the betting
phase or the end of the gaming phase. -/
inductive TimerKind where
  | bettingTimeout
  | gamingTimeout
deriving DecidableEq, Repr

/-- The manager configuration (gameCountdownManager.js lines 21-26). -/
structure CountdownConfig where
  bettingCountdown : ℚ
  gameCountdown : ℚ
  autoStart : Bool
  fixedCrashMultiplier : ℚ
deriving DecidableEq, Repr

/-- The default configuration (gameCountdownManager.js lines 21-26). -/
def defaultConfig : CountdownConfig :=
  { bettingCountdown := 30000, gameCountdown := 60000, autoStart := true
    fixedCrashMultiplier := 0 }

/-- `currentState` plus the pending phase timer (gameCountdownManager.js
lines 37-47).  `timers` lists the pending `setTimeout` callbacks: the source
keeps at most one handle in `this.countdownTimer`; the list makes
"clear the old timer, then arm the new one" observable. -/
structure CountdownState where
  phase : Phase
  isCountingDown : Bool
  countdownStartTime : Option ℚ
  countdownEndTime : Option ℚ
  gameId : Option String
  round : ℕ
  timers : List TimerKind
deriving DecidableEq, Repr

/-- The state built by the constructor (gameCountdownManager.js lines 37-47),
before any countdown starts. -/
def initialCountdownState : CountdownState :=
  { phase := .idle, isCountingDown := false, countdownStartTime := none
    countdownEndTime := none, gameId := none, round := 0, timers := [] }

/-- `clearTimers` (gameCountdownManager.js lines 417-427): cancel the pending
phase timer (the source also cancels the debounced config save, which is not
part of this state). -/
def clearTimers (s : CountdownState) : CountdownState :=
  { s with timers := [] }

/-- The game id generated on betting entry (gameCountdownManager.js line 65):
`game_` plus the clock value plus a random suffix. -/
def mkGameId (now : ℚ) (rnd : String) : String :=
  "game_" ++ toString now.num ++ "_" ++ rnd

/-- `startBettingCountdown` (gameCountdownManager.js lines 60-91): clear the
timers, generate a fresh game id, bump the round, enter the betting phase and
arm the betting timeout. -/
def startBettingCountdown (cfg : CountdownConfig) (s : CountdownState)
    (now : ℚ) (rnd : String) : CountdownState :=
  let s := clearTimers s
  { s with
    gameId := some (mkGameId now rnd)
    round := s.round + 1
    phase := .betting
    isCountingDown := true
    countdownStartTime := some now
    countdownEndTime := some (jsAdd now cfg.bettingCountdown)
    timers := s.timers ++ [.bettingTimeout] }

/-- `startGameCountdown` (gameCountdownManager.js lines 96-122): clear the
timers, enter the gaming phase (round and game id unchanged) and arm the
gaming timeout. -/
def startGameCountdown (cfg : CountdownConfig) (s : CountdownState)
    (now : ℚ) : CountdownState :=
  let s := clearTimers s
  { s with
    phase := .gaming
    isCountingDown := true
    countdownStartTime := some now
    countdownEndTime := some (jsAdd now cfg.gameCountdown)
    timers := s.timers ++ [.gamingTimeout] }

/-- `onBettingCountdownFinished` (gameCountdownManager.js lines 127-144). -/
def onBettingCountdownFinished (cfg : CountdownConfig) (s : CountdownState)
    (now : ℚ) : CountdownState :=
  if cfg.autoStart then startGameCountdown cfg s now
  else { s with isCountingDown := false, phase := .idle }

/-- `onGameCountdownFinished` (gameCountdownManager.js lines 149-166). -/
def onGameCountdownFinished (cfg : CountdownConfig) (s : CountdownState)
    (now : ℚ) (rnd : String) : CountdownState :=
  if cfg.autoStart then startBettingCountdown cfg s now rnd
  else { s with isCountingDown := false, phase := .idle }

/-- The event-loop step that fires a due timer: the fired `setTimeout` handle
is spent (removed from the pending set) and its callback runs. -/
def fireTimer (cfg : CountdownConfig) (s : CountdownState) (k : TimerKind)
    (now : ℚ) (rnd : String) : CountdownState :=
  match k with
  | .bettingTimeout =>
      onBettingCountdownFinished cfg { s with timers := s.timers.erase k } now
  | .gamingTimeout =>
      onGameCountdownFinished cfg { s with timers := s.timers.erase k } now rnd

/-- A runtime configuration patch, as sent to `updateConfig`
(gameCountdownManager.js lines 369-405); `none` models an absent key. -/
structure ConfigPatch where
  bettingCountdown : Option ℚ := none
  gameCountdown : Option ℚ := none
  autoStart : Option Bool := none
  fixedCrashMultiplier : Option ℚ := none
deriving DecidableEq, Repr

/-- The guard `newConfig.bettingCountdown && (bc < 5000 || bc > 1800000)`
(gameCountdownManager.js lines 373-379): JS truthiness skips the range check
when the supplied value is absent — or `0`, which is falsy. -/
def badCountdownValue (o : Option ℚ) : Bool :=
  match o with
  | none => false
  | some v => v != 0 && (decide (v < 5000) || decide (1800000 < v))

/-- The guard on `fixedCrashMultiplier` (gameCountdownManager.js lines
382-388): checked whenever supplied; rejected when positive yet outside
`[1.01, 1000]`. -/
def badFixedValue (o : Option ℚ) : Bool :=
  match o with
  | none => false
  | some v => decide (0 < v) && (decide (v < mkRat 101 100) || decide (1000 < v))

/-- `updateConfig` (gameCountdownManager.js lines 369-405): validate, then
merge the patch over the current configuration (`{ ...config, ...patch }`).
A validation failure throws before the merge. -/
def updateConfig (cfg : CountdownConfig) (p : ConfigPatch) :
    Except String CountdownConfig :=
  if badCountdownValue p.bettingCountdown then
    .error "Betting countdown must be between 5 seconds and 30 minutes"
  else if badCountdownValue p.gameCountdown then
    .error "Game countdown must be between 5 seconds and 30 minutes"
  else if badFixedValue p.fixedCrashMultiplier then
    .error "Fixed crash multiplier must be between 1.01 and 1000.00, or <= 0 for random"
  else
    .ok { bettingCountdown := p.bettingCountdown.getD cfg.bettingCountdown
          gameCountdown := p.gameCountdown.getD cfg.gameCountdown
          autoStart := p.autoStart.getD cfg.autoStart
          fixedCrashMultiplier :=
            p.fixedCrashMultiplier.getD cfg.fixedCrashMultiplier }

/-- The effect of `manager.updateConfig` on the stored configuration: a
thrown validation error leaves `this.config` untouched. -/
def applyUpdateConfig (cfg : CountdownConfig) (p : ConfigPatch) :
    CountdownConfig × Option String :=
  match updateConfig cfg p with
  | .error e => (cfg, some e)
  | .ok cfg' => (cfg', none)

/-! ### Prize records and claiming (src/models/Race.js, src/routes/race.js) -/

/-- `racePrizeSchema.status` (Race.js lines 324-330): only two states. -/
inductive PrizeStatus where
  | pending
  | claimed
deriving DecidableEq, Repr

/-- A `RacePrize` document (Race.js lines 296-385), restricted to the fields
the claiming path touches. -/
structure RacePrize where
  raceId : String
  userId : String
  rank : ℕ
  prizeAmount : ℚ
  percentage : ℚ
  status : PrizeStatus
  claimedAt : Option ℚ
deriving DecidableEq, Repr

/-- `racePrizeSchema.methods.claim` (Race.js lines 400-409): throw when the
status is not `pending`, else set `claimed` and stamp `claimedAt`. -/
def RacePrize.claim (p : RacePrize) (now : ℚ) : Except String RacePrize :=
  if p.status ≠ PrizeStatus.pending then .error "Prize already claimed"
  else .ok { p with status := .claimed, claimedAt := some now }

/-- A user-store row, as touched by the claim route (balance credit). -/
structure User where
  userId : String
  balance : ℚ
deriving DecidableEq, Repr

/-- Response of `POST /api/race/prizes/:prizeId/claim`. -/
inductive ClaimResponse where
  | ok (prizeAmount : ℚ) (claimedAt : ℚ)
  | notFound
  | forbidden
  | notPending
deriving DecidableEq, Repr

/-- The HTTP status of a `ClaimResponse` (race.js lines 295-365: 404 when the
prize does not exist, 403 on owner mismatch, 400 when not `pending`). -/
def ClaimResponse.status : ClaimResponse → ℕ
  | .ok _ _ => 200
  | .notFound => 404
  | .forbidden => 403
  | .notPending => 400

/-- The handler of `POST /api/race/prizes/:prizeId/claim` (race.js lines
280-365): look up the prize, check ownership and status, run
`RacePrize.claim`, then credit the owning user's balance when the user row
exists (a missing user is only logged).  Returns the response, the stored
prize record and the stored user row. -/
def claimPrizeHandler (prize : Option RacePrize) (userId : String)
    (user : Option User) (now : ℚ) :
    ClaimResponse × Option RacePrize × Option User :=
  match prize with
  | none => (.notFound, none, user)
  | some p =>
      if p.userId ≠ userId then (.forbidden, some p, user)
      else if p.status ≠ .pending then (.notPending, some p, user)
      else
        match p.claim now with
        | .error _ => (.notPending, some p, user)
        | .ok p' =>
            match user with
            | some u =>
                (.ok p.prizeAmount now, some p',
                 some { u with balance := jsAdd u.balance p.prizeAmount })
            | none => (.ok p.prizeAmount now, some p', none)

/-! ### Race completion (src/models/Race.js, src/services/raceManager.js) -/

/-- `raceSchema.status` (Race.js lines 51-56). -/
inductive RaceStatus where
  | pending
  | active
  | completed
  | cancelled
deriving DecidableEq, Repr

/-- A `Race` document (Race.js lines 32-83).  `finalPrizePool` and
`finalContribution` are `Option` so that an assignment of JS `undefined` is
representable (schema default `0` on creation). -/
structure RaceRecord where
  raceId : String
  startTime : ℚ
  endTime : ℚ
  actualEndTime : Option ℚ
  status : RaceStatus
  finalPrizePool : Option ℚ
  finalContribution : Option ℚ
  totalParticipants : ℚ
  finalizedAt : Option ℚ
deriving DecidableEq, Repr

/-- The shape `raceSchema.methods.complete` expects for its first parameter
(Race.js lines 107-120): a value whose `totalPool` and `contributedAmount`
fields it reads (`none` models a missing field, i.e. JS `undefined`). -/
structure CompleteArg where
  totalPool : Option ℚ
  contributedAmount : Option ℚ
deriving DecidableEq, Repr

/-- `raceSchema.methods.complete(prizePool, participantCount)` (Race.js lines
107-120): set `completed`, stamp `actualEndTime` and `finalizedAt`; when the
first argument is truthy copy its `totalPool` and `contributedAmount` into
the final fields; `totalParticipants := participantCount || 0`. -/
def RaceRecord.complete (r : RaceRecord) (prizePool : Option CompleteArg)
    (participantCount : Option ℚ) (now : ℚ) : RaceRecord :=
  let r := { r with status := RaceStatus.completed, actualEndTime := some now
                    finalizedAt := some now }
  let r :=
    match prizePool with
    | some a => { r with finalPrizePool := a.totalPool
                         finalContribution := a.contributedAmount }
    | none => r
  { r with totalParticipants := participantCount.getD 0 }

/-- The update `endRaceById` performs on the race record (raceManager.js
lines 224-230): it calls `raceDoc.complete({ leaderboard, prizePool,
prizeDistribution })` — ONE object argument.  That object is truthy but has
no `totalPool` or `contributedAmount` field (those sit one level deeper,
under its `prizePool` key), so the method reads `undefined` for both, and
`participantCount` is not passed at all. -/
def endRaceCompleteStep (r : RaceRecord) (now : ℚ) : RaceRecord :=
  RaceRecord.complete r (some { totalPool := none, contributedAmount := none })
    none now

/-! ### Global statistics (gameSessionCache.js lines 530-557) -/

/-- The payload `getGlobalStats` is meant to return (numeric values; the
source formats some of them with `toFixed(2)`). -/
structure GlobalStats where
  totalSessions : ℕ
  winRate : ℚ
  totalBetAmount : ℚ
  totalWinAmount : ℚ
  avgMultiplier : ℚ
  maxMultiplier : ℚ
  cacheSize : ℕ
  pendingSavesCount : ℕ
deriving DecidableEq, Repr

/-- A thrown JS runtime error. -/
inductive JsError where
  | typeError (msg : String)
deriving DecidableEq, Repr

/-- `getGlobalStats` (gameSessionCache.js lines 530-557).  The method starts
with `this.globalSessions.filter(...)`; `this.globalSessions` is an
undeclared property (see `GameSessionCache.globalSessions`), so when it is
`undefined` the call throws a `TypeError` before computing anything.  The
`some` branch is the faithful translation of the rest of the method. -/
def getGlobalStats (c : GameSessionCache) (now : ℚ) :
    Except JsError GlobalStats :=
  match c.globalSessions with
  | none =>
      .error (.typeError "Cannot read properties of undefined (reading filter)")
  | some gs =>
      let oneDayAgo := jsSub now 86400000
      let recentSessions := gs.filter fun s => decide (oneDayAgo < s.timestamp)
      let totalSessions := recentSessions.length
      let wins := (recentSessions.filter fun s => s.isWin).length
      let multipliers :=
        (recentSessions.map fun s => s.crashMultiplier).filter fun m =>
          decide (0 < m)
      .ok
        { totalSessions := totalSessions
          winRate :=
            if 0 < totalSessions then
              jsMul (jsDiv (mkRat wins 1) (mkRat totalSessions 1)) 100
            else 0
          totalBetAmount :=
            recentSessions.foldl (fun sum s => jsAdd sum s.betAmount) 0
          totalWinAmount :=
            recentSessions.foldl (fun sum s => jsAdd sum s.winAmount) 0
          avgMultiplier :=
            if 0 < multipliers.length then
              jsDiv (multipliers.foldl jsAdd 0) (mkRat multipliers.length 1)
            else 0
          maxMultiplier :=
            if 0 < multipliers.length then multipliers.foldl jsMax 0 else 0
          cacheSize := gs.length
          pendingSavesCount := c.pendingSaves.length }

/-! ## Theorems -/

theorem jsAdd_eq (a b : ℚ) : jsAdd a b = a + b := by
  have ha : ((a.den : ℚ)) ≠ 0 := by exact_mod_cast a.den_nz
  have hb : ((b.den : ℚ)) ≠ 0 := by exact_mod_cast b.den_nz
  rw [jsAdd, Rat.mkRat_eq_div]
  push_cast
  conv_rhs => rw [← Rat.num_div_den a, ← Rat.num_div_den b]
  field_simp

theorem jsMul_eq (a b : ℚ) : jsMul a b = a * b := by
  have ha : ((a.den : ℚ)) ≠ 0 := by exact_mod_cast a.den_nz
  have hb : ((b.den : ℚ)) ≠ 0 := by exact_mod_cast b.den_nz
  rw [jsMul, Rat.mkRat_eq_div]
  push_cast
  conv_rhs => rw [← Rat.num_div_den a, ← Rat.num_div_den b]
  field_simp

theorem jsSub_eq (a b : ℚ) : jsSub a b = a - b := by
  rw [jsSub, jsNeg, jsAdd_eq]
  ring

theorem jsDiv_eq (a b : ℚ) : jsDiv a b = a / b := by
  rcases lt_trichotomy b.num 0 with h | h | h
  · have ha : ((a.den : ℚ)) ≠ 0 := by exact_mod_cast a.den_nz
    have hd : ((b.den : ℚ)) ≠ 0 := by exact_mod_cast b.den_nz
    have hn : ((b.num : ℚ)) ≠ 0 := by exact_mod_cast h.ne
    have habs : ((b.num.natAbs : ℚ)) = -(b.num : ℚ) := by
      rw [Int.cast_natAbs, abs_of_neg h]
      push_cast
      ring
    rw [jsDiv, if_pos h, Rat.mkRat_eq_div]
    push_cast
    rw [habs]
    conv_rhs => rw [← Rat.num_div_den a, ← Rat.num_div_den b]
    field_simp
  · have hb : b = 0 := by
      rwa [Rat.num_eq_zero] at h
    subst hb
    simp [jsDiv, Rat.mkRat_eq_div]
  · have ha : ((a.den : ℚ)) ≠ 0 := by exact_mod_cast a.den_nz
    have hd : ((b.den : ℚ)) ≠ 0 := by exact_mod_cast b.den_nz
    have hn : ((b.num : ℚ)) ≠ 0 := by exact_mod_cast h.ne'
    have habs : ((b.num.natAbs : ℚ)) = (b.num : ℚ) := by
      rw [Int.cast_natAbs, abs_of_pos h]
    rw [jsDiv, if_neg (by omega), Rat.mkRat_eq_div]
    push_cast
    rw [habs]
    conv_rhs => rw [← Rat.num_div_den a, ← Rat.num_div_den b]
    field_simp

theorem jsMax_eq (a b : ℚ) : jsMax a b = max a b := by
  rw [jsMax, max_def]

theorem keyLe_iff (key : Participant → ℚ) (a b : Participant) :
    keyLe key a b = true ↔
      key b < key a ∨ (key a = key b ∧ a.userId ≤ b.userId) := by
  simp [keyLe, Bool.or_eq_true, Bool.and_eq_true, decide_eq_true_iff, beq_iff_eq]

theorem keyLe_total (key : Participant → ℚ) (a b : Participant) :
    keyLe key a b = true ∨ keyLe key b a = true := by
  rw [keyLe_iff, keyLe_iff]
  rcases lt_trichotomy (key a) (key b) with h | h | h
  · exact Or.inr (Or.inl h)
  · rcases le_total a.userId b.userId with hu | hu
    · exact Or.inl (Or.inr ⟨h, hu⟩)
    · exact Or.inr (Or.inr ⟨h.symm, hu⟩)
  · exact Or.inl (Or.inl h)

theorem keyLe_trans (key : Participant → ℚ) (a b c : Participant) :
    keyLe key a b = true → keyLe key b c = true → keyLe key a c = true := by
  rw [keyLe_iff, keyLe_iff, keyLe_iff]
  rintro (hab | ⟨hab, hu1⟩) (hbc | ⟨hbc, hu2⟩)
  · exact Or.inl (hbc.trans hab)
  · exact Or.inl (hbc ▸ hab)
  · exact Or.inl (hab ▸ hbc)
  · exact Or.inr ⟨hab.trans hbc, hu1.trans hu2⟩

theorem sortedInsert_perm (le : Participant → Participant → Bool)
    (a : Participant) (l : List Participant) :
    List.Perm (sortedInsert le a l) (a :: l) := by
  induction l with
  | nil => exact List.Perm.refl _
  | cons b t ih =>
    rw [sortedInsert]
    by_cases h : le a b
    · rw [if_pos h]
    · rw [if_neg h]
      exact (ih.cons b).trans (List.Perm.swap a b t)

theorem sortBy_perm (le : Participant → Participant → Bool) (l : List Participant) :
    List.Perm (sortBy le l) l := by
  induction l with
  | nil => exact List.Perm.refl _
  | cons a t ih => exact (sortedInsert_perm le a (sortBy le t)).trans (ih.cons a)

theorem mem_sortedInsert (le : Participant → Participant → Bool)
    (a x : Participant) (l : List Participant) :
    x ∈ sortedInsert le a l ↔ x = a ∨ x ∈ l := by
  rw [(sortedInsert_perm le a l).mem_iff, List.mem_cons]

theorem pairwise_sortedInsert (le : Participant → Participant → Bool)
    (htot : ∀ a b, le a b = true ∨ le b a = true)
    (htrans : ∀ a b c, le a b = true → le b c = true → le a c = true)
    (a : Participant) (l : List Participant)
    (h : l.Pairwise fun x y => le x y = true) :
    (sortedInsert le a l).Pairwise fun x y => le x y = true := by
  induction l with
  | nil => simp [sortedInsert]
  | cons b t ih =>
    rw [sortedInsert]
    rcases List.pairwise_cons.mp h with ⟨hb, ht⟩
    by_cases hab : le a b
    · rw [if_pos hab]
      refine List.pairwise_cons.mpr ⟨?_, h⟩
      intro x hx
      rcases List.mem_cons.mp hx with hx | hx
      · exact hx ▸ hab
      · exact htrans a b x hab (hb x hx)
    · rw [if_neg hab]
      refine List.pairwise_cons.mpr ⟨?_, ih ht⟩
      intro x hx
      rcases (mem_sortedInsert le a x t).mp hx with hx | hx
      · subst hx
        rcases htot b x with hbx | hxb
        · exact hbx
        · exact absurd hxb hab
      · exact hb x hx

theorem pairwise_sortBy (le : Participant → Participant → Bool)
    (htot : ∀ a b, le a b = true ∨ le b a = true)
    (htrans : ∀ a b c, le a b = true → le b c = true → le a c = true)
    (l : List Participant) :
    (sortBy le l).Pairwise fun x y => le x y = true := by
  induction l with
  | nil => simp [sortBy]
  | cons a t ih => exact pairwise_sortedInsert le htot htrans a (sortBy le t) ih

theorem sortBy_eq_of_pairwise (le : Participant → Participant → Bool)
    (l : List Participant) (h : l.Pairwise fun x y => le x y = true) :
    sortBy le l = l := by
  induction l with
  | nil => rfl
  | cons a t ih =>
    rcases List.pairwise_cons.mp h with ⟨ha, ht⟩
    show sortedInsert le a (sortBy le t) = a :: t
    rw [ih ht]
    cases t with
    | nil => rfl
    | cons b t2 =>
      rw [sortedInsert, if_pos (ha b (List.mem_cons_self b t2))]

theorem mapLookup_mapSet {β : Type} (m : List (String × β)) (k : String) (v : β) :
    mapLookup (mapSet m k v) k = some v := by
  induction m with
  | nil => simp [mapSet, mapLookup]
  | cons e rest ih =>
    rw [mapSet]
    by_cases h : e.1 == k
    · rw [if_pos h, mapLookup, if_pos (by simp)]
    · rw [if_neg h, mapLookup, if_neg h, ih]

/-- **C1.**  On the S2 leaderboard (contributions a=1000, b=500, c=220, d=120,
e=100, f=80, g=60, h=40, i=30, j=20, k=10) `calculatePrizeDistribution`
computes `totalPool = 50000` (the minimum guarantee, since the contributed
2180 < 50000) and exactly the prizes a↦25000 (rank 1), b↦12500 (rank 2),
c↦5500 (rank 3), d..j↦1000 each (ranks 4-10); k receives no entry; and the sum
of all prize amounts does not exceed the total pool. -/
theorem c1_s2_prize_distribution :
    (calculatePrizeDistribution (some s2Table)).prizePool.totalPool = 50000 ∧
    (calculatePrizeDistribution (some s2Table)).prizePool.contributedAmount
      = 2180 ∧
    ((calculatePrizeDistribution (some s2Table)).distributions.map
        fun e => (e.userId, e.rank, e.prizeAmount)) =
      [("a", 1, 25000), ("b", 2, 12500), ("c", 3, 5500),
       ("d", 4, 1000), ("e", 5, 1000), ("f", 6, 1000), ("g", 7, 1000),
       ("h", 8, 1000), ("i", 9, 1000), ("j", 10, 1000)] ∧
    ((calculatePrizeDistribution (some s2Table)).distributions.all
        fun e => e.userId != "k") = true ∧
    (((calculatePrizeDistribution (some s2Table)).distributions.map
        (·.prizeAmount)).foldl (· + ·) 0 : ℤ) ≤ 50000 := by
  decide

/-! ### The Top-1000 cap (claim C2) -/

theorem eq_of_keysNodup {l : List Participant} (h : keysNodup l) {a b : Participant}
    (ha : a ∈ l) (hb : b ∈ l) (huid : a.userId = b.userId) : a = b := by
  induction l with
  | nil => cases ha
  | cons c t ih =>
    have h' : c.userId ∉ t.map (fun p => p.userId) ∧ keysNodup t := by
      unfold keysNodup at h
      rw [List.map_cons, List.nodup_cons] at h
      exact h
    rcases List.mem_cons.mp ha with rfl | ha' <;>
      rcases List.mem_cons.mp hb with rfl | hb'
    · rfl
    · exact absurd (huid ▸ List.mem_map_of_mem (fun p => p.userId) hb') h'.1
    · exact absurd (huid ▸ List.mem_map_of_mem (fun p => p.userId) ha') h'.1
    · exact ih h'.2 ha' hb'

theorem maintainTop1000_of_le (l : List Participant) (h : l.length ≤ 1000) :
    maintainTop1000 l = l := by
  rw [maintainTop1000, if_pos h]

theorem maintainTop1000_perm (l : List Participant) (h : keysNodup l)
    (hlen : 1000 < l.length) :
    List.Perm (maintainTop1000 l) ((sortBy netLe l).take 1000) := by
  have hperm := sortBy_perm netLe l
  have hnodup : l.Nodup := List.Nodup.of_map _ h
  have hskeys : keysNodup (sortBy netLe l) := by
    unfold keysNodup at h ⊢
    exact (hperm.map _).nodup_iff.mpr h
  have hsplit := List.take_append_drop 1000 (sortBy netLe l)
  rw [maintainTop1000, if_neg (by omega), List.perm_iff_count]
  intro x
  have hcl : List.count x l ≤ 1 := List.nodup_iff_count_le_one.mp hnodup x
  have hsum : List.count x ((sortBy netLe l).take 1000) +
      List.count x ((sortBy netLe l).drop 1000) = List.count x l := by
    rw [← List.count_append, hsplit]
    exact hperm.count_eq x
  by_cases hP : (((sortBy netLe l).drop 1000).any fun q => q.userId == x.userId) = true
  · have hfilter : x ∉ l.filter fun p =>
        !(((sortBy netLe l).drop 1000).any fun q => q.userId == p.userId) := by
      intro hx
      have hmem := List.of_mem_filter hx
      rw [hP] at hmem
      simp at hmem
    rw [List.count_eq_zero.mpr hfilter]
    rcases List.any_eq_true.mp hP with ⟨q, hq_mem, hq_eq⟩
    have hq_uid : q.userId = x.userId := by simpa using hq_eq
    symm
    rw [List.count_eq_zero]
    intro hx_take
    have hx_s : x ∈ sortBy netLe l := by
      rw [← hsplit]
      exact List.mem_append_left _ hx_take
    have hq_s : q ∈ sortBy netLe l := by
      rw [← hsplit]
      exact List.mem_append_right _ hq_mem
    have hxq : x = q := eq_of_keysNodup hskeys hx_s hq_s hq_uid.symm
    have h1 : 0 < List.count x ((sortBy netLe l).take 1000) :=
      List.count_pos_iff.mpr hx_take
    have h2 : 0 < List.count x ((sortBy netLe l).drop 1000) :=
      List.count_pos_iff.mpr (hxq ▸ hq_mem)
    omega
  · have hfalse : (((sortBy netLe l).drop 1000).any fun q => q.userId == x.userId)
        = false := by
      rwa [← Bool.not_eq_true]
    have hcf : List.count x (l.filter fun p =>
        !(((sortBy netLe l).drop 1000).any fun q => q.userId == p.userId)) =
        List.count x l := List.count_filter (by rw [hfalse]; rfl)
    rw [hcf]
    have hdrop0 : List.count x ((sortBy netLe l).drop 1000) = 0 := by
      rw [List.count_eq_zero]
      intro hx_drop
      have : (((sortBy netLe l).drop 1000).any fun q => q.userId == x.userId)
          = true := List.any_eq_true.mpr ⟨x, hx_drop, by simp⟩
      rw [this] at hfalse
      cases hfalse
    omega

theorem keys_applySessionToParticipants (raceId : String) (l : List Participant)
    (userId : String) (s : Session) (now : ℚ) :
    (applySessionToParticipants raceId l userId s now).map (fun p => p.userId) =
      (if l.any fun p => p.userId == userId then l
       else l ++ [freshParticipant raceId userId now]).map fun p => p.userId := by
  unfold applySessionToParticipants
  rw [List.map_map]
  refine List.map_congr_left ?_
  intro p _
  by_cases hp : p.userId == userId
  · simp only [Function.comp_apply, hp, if_pos]
    rfl
  · simp only [Function.comp_apply, hp]
    rfl

theorem keysNodup_applySessionToParticipants (raceId : String)
    (l : List Participant) (userId : String) (s : Session) (now : ℚ)
    (h : keysNodup l) :
    keysNodup (applySessionToParticipants raceId l userId s now) := by
  unfold keysNodup
  rw [keys_applySessionToParticipants]
  by_cases hany : l.any fun p => p.userId == userId
  · rw [if_pos hany]
    exact h
  · rw [if_neg hany, List.map_append]
    rw [List.nodup_append]
    refine ⟨h, by simp [freshParticipant], ?_⟩
    intro a ha hb
    simp only [List.map_cons, List.map_nil, List.mem_singleton,
      freshParticipant] at hb
    rcases List.mem_map.mp ha with ⟨p, hp_mem, hp_eq⟩
    have : ¬ (p.userId == userId) = true := by
      intro hpu
      exact hany (List.any_eq_true.mpr ⟨p, hp_mem, hpu⟩)
    rw [beq_iff_eq] at this
    exact this (hp_eq.trans hb)

theorem updateRaceParticipant_length_le (raceId : String) (l : List Participant)
    (userId : String) (s : Session) (now : ℚ) (h : keysNodup l) :
    (updateRaceParticipant raceId l userId s now).length ≤ 1000 := by
  unfold updateRaceParticipant
  by_cases hu : (applySessionToParticipants raceId l userId s now).length ≤ 1000
  · rw [maintainTop1000_of_le _ hu]
    exact hu
  · have hp := maintainTop1000_perm _
      (keysNodup_applySessionToParticipants raceId l userId s now h) (by omega)
    rw [hp.length_eq, List.length_take]
    exact min_le_left _ _

/-- **C2 (amended).**  After `addSession` while a current race is set (and the
race's table has distinct user keys, as JS `Map` keys are), the participant
table of that race (a) is exactly `updateRaceParticipant` applied to the old
table, (b) holds at most 1000 rows, and (c) whenever the cap was enforced
(the updated table exceeded 1000 rows), the retained rows are exactly the top
1000 under `netProfit` descending with tie-break `userId` ascending — the
`maintainTop1000` ordering, which differs from the `contributionToPool`
leaderboard ordering used for prize ranking (see the counterexample). -/
theorem c2_addSession_top1000 (c : GameSessionCache) (input : SessionInput)
    (now : ℚ) (rnd : String) (raceId : String)
    (hrace : c.currentRaceId = some raceId)
    (hnodup : keysNodup (participantsOf c raceId)) :
    participantsOf (addSession c input now rnd).2 raceId =
      updateRaceParticipant raceId (participantsOf c raceId) input.userId
        (mkSession raceId input now rnd) now ∧
    (participantsOf (addSession c input now rnd).2 raceId).length ≤ 1000 ∧
    (1000 < (applySessionToParticipants raceId (participantsOf c raceId)
        input.userId (mkSession raceId input now rnd) now).length →
      List.Perm (participantsOf (addSession c input now rnd).2 raceId)
        ((sortBy netLe (applySessionToParticipants raceId (participantsOf c raceId)
          input.userId (mkSession raceId input now rnd) now)).take 1000)) := by
  have h1 : participantsOf (addSession c input now rnd).2 raceId =
      updateRaceParticipant raceId (participantsOf c raceId) input.userId
        (mkSession raceId input now rnd) now := by
    simp only [addSession, hrace]
    unfold participantsOf
    rw [mapLookup_mapSet]
    rfl
  refine ⟨h1, ?_, ?_⟩
  · rw [h1]
    exact updateRaceParticipant_length_le _ _ _ _ _ hnodup
  · intro hcap
    rw [h1]
    unfold updateRaceParticipant
    exact maintainTop1000_perm _
      (keysNodup_applySessionToParticipants _ _ _ _ _ hnodup) hcap

/-- Witness for C2 (amended) at a concrete input: one session added to a
fresh race table. -/
theorem c2_addSession_top1000_witness :
    (participantsOf (addSession (setCurrentRace initialCache "race_w")
        ⟨"user0001", 10, 20, 2, true⟩ 5 "r").2 "race_w").length ≤ 1000 :=
  (c2_addSession_top1000 (setCurrentRace initialCache "race_w")
    ⟨"user0001", 10, 20, 2, true⟩ 5 "r" "race_w" (by decide) (by decide)).2.1

theorem cxUid_injective : Function.Injective cxUid := by
  intro i j h
  have hlen := congrArg (fun t => t.data.length) h
  simp only [cxUid, List.length_replicate] at hlen
  omega

theorem bigTable_keysNodup : keysNodup bigTable := by
  unfold keysNodup bigTable
  rw [List.map_map]
  exact List.Nodup.map (fun a b hab => cxUid_injective hab) (List.nodup_range 1001)

theorem bigTable_length : bigTable.length = 1001 := by
  simp [bigTable]

theorem bigTable_pairwise_net :
    List.Pairwise (fun x y => netLe x y = true) bigTable := by
  unfold bigTable
  rw [List.pairwise_map]
  refine (List.pairwise_lt_range 1001).imp ?_
  intro i j hij
  show keyLe (fun p => p.netProfit) (bigP i) (bigP j) = true
  rw [keyLe_iff]
  left
  show (bigP j).netProfit < (bigP i).netProfit
  simp only [bigP, Rat.mkRat_one]
  rw [Int.cast_lt]
  omega

theorem bigTable_sortNet : sortBy netLe bigTable = bigTable :=
  sortBy_eq_of_pairwise netLe bigTable bigTable_pairwise_net

theorem bigTable_split :
    bigTable = (List.range 1000).map bigP ++ [bigP 1000] := by
  unfold bigTable
  rw [show (1001 : ℕ) = 1000 + 1 by norm_num, List.range_succ, List.map_append]
  rfl

theorem bigTable_sortNet_drop :
    (sortBy netLe bigTable).drop 1000 = [bigP 1000] := by
  rw [bigTable_sortNet, bigTable_split]
  exact List.drop_left' (by simp)

theorem victim_not_retained : bigP 1000 ∉ maintainTop1000 bigTable := by
  rw [maintainTop1000, if_neg (by rw [bigTable_length]; omega)]
  intro hmem
  have hp := List.of_mem_filter hmem
  rw [bigTable_sortNet_drop] at hp
  simp at hp

theorem victim_in_contrib_top1000 :
    bigP 1000 ∈ (sortBy contribLe bigTable).take 1000 := by
  have hperm : List.Perm (sortBy contribLe bigTable) bigTable :=
    sortBy_perm contribLe bigTable
  have hv_big : bigP 1000 ∈ bigTable :=
    List.mem_map_of_mem bigP (List.mem_range.mpr (by omega))
  have hv_sc : bigP 1000 ∈ sortBy contribLe bigTable := hperm.mem_iff.mpr hv_big
  by_contra hnot
  have hsplit := List.take_append_drop 1000 (sortBy contribLe bigTable)
  have hv_drop : bigP 1000 ∈ (sortBy contribLe bigTable).drop 1000 := by
    rw [← hsplit] at hv_sc
    rcases List.mem_append.mp hv_sc with h | h
    · exact absurd h hnot
    · exact h
  have hlen_sc : (sortBy contribLe bigTable).length = 1001 := by
    rw [hperm.length_eq]
    exact bigTable_length
  have htake_ne : (sortBy contribLe bigTable).take 1000 ≠ [] := by
    intro h0
    have := congrArg List.length h0
    rw [List.length_take] at this
    simp [hlen_sc] at this
  obtain ⟨u, hu⟩ := List.exists_mem_of_ne_nil _ htake_ne
  have hpair : List.Pairwise (fun x y => contribLe x y = true)
      (sortBy contribLe bigTable) :=
    pairwise_sortBy contribLe (keyLe_total _) (keyLe_trans _) bigTable
  rw [← hsplit] at hpair
  have hle : contribLe u (bigP 1000) = true :=
    (List.pairwise_append.mp hpair).2.2 u hu _ hv_drop
  have hu_ne : u ≠ bigP 1000 := fun he => hnot (he ▸ hu)
  have hu_big : u ∈ bigTable := by
    refine hperm.mem_iff.mp ?_
    rw [← hsplit]
    exact List.mem_append_left _ hu
  rcases List.mem_map.mp hu_big with ⟨i, hi_range, hi_eq⟩
  have hi_lt : i < 1001 := List.mem_range.mp hi_range
  have hi_ne : i ≠ 1000 := by
    rintro rfl
    exact hu_ne hi_eq.symm
  rw [← hi_eq] at hle
  have hle' : keyLe (fun p => p.contributionToPool) (bigP i) (bigP 1000) = true :=
    hle
  rw [keyLe_iff] at hle'
  have hvc : (bigP 1000).contributionToPool = ((1000000 : ℤ) : ℚ) := by
    simp [bigP, Rat.mkRat_one]
  have huc : (bigP i).contributionToPool = ((1000 - (i : ℤ) : ℤ) : ℚ) := by
    simp [bigP, hi_ne, Rat.mkRat_one]
  rw [hvc, huc] at hle'
  rcases hle' with h | ⟨h, _⟩
  · rw [Int.cast_lt] at h
    omega
  · rw [Int.cast_inj] at h
    omega

/-- **C2 (counterexample).**  On the well-formed 1001-row table `bigTable`
the cap is enforced, but the retained rows are NOT the top 1000 under the
leaderboard ordering (`contributionToPool` descending, tie-break `userId`):
`maintainTop1000` orders by `netProfit` instead, and evicts the row with the
largest pool contribution (row 1000, whose `netProfit` is the smallest). -/
theorem c2_counterexample :
    keysNodup bigTable ∧ 1000 < bigTable.length ∧
    ¬ List.Perm (maintainTop1000 bigTable)
        ((sortBy contribLe bigTable).take 1000) := by
  refine ⟨bigTable_keysNodup, by rw [bigTable_length]; omega, ?_⟩
  intro h
  exact victim_not_retained (h.mem_iff.mpr victim_in_contrib_top1000)

/-! ### Session ingest row updates (claim C3) -/

theorem bumpParticipant_userId (p : Participant) (s : Session) (now : ℚ) :
    (bumpParticipant p s now).userId = p.userId := rfl

theorem freshParticipant_userId (raceId u : String) (now : ℚ) :
    (freshParticipant raceId u now).userId = u := rfl

theorem applySession_cons (raceId : String) (a : Participant)
    (t : List Participant) (userId : String) (s : Session) (now : ℚ)
    (ha : (a.userId == userId) = false) :
    applySessionToParticipants raceId (a :: t) userId s now =
      a :: applySessionToParticipants raceId t userId s now := by
  unfold applySessionToParticipants
  rw [List.any_cons, ha, Bool.false_or]
  by_cases hany : t.any fun p => p.userId == userId
  · rw [if_pos hany, if_pos hany, List.map_cons, ha]
    simp
  · rw [if_neg hany, if_neg hany, List.cons_append, List.map_cons, ha]
    simp

theorem findRow_applySession (raceId : String) (l : List Participant)
    (userId : String) (s : Session) (now : ℚ) :
    findRow (applySessionToParticipants raceId l userId s now) userId =
      some (bumpParticipant ((findRow l userId).getD
        (freshParticipant raceId userId now)) s now) := by
  induction l with
  | nil =>
      simp [findRow, applySessionToParticipants, freshParticipant,
        bumpParticipant_userId]
  | cons a t ih =>
      by_cases ha : (a.userId == userId) = true
      · have haeq : a.userId = userId := by rwa [beq_iff_eq] at ha
        unfold applySessionToParticipants
        rw [List.any_cons, ha, Bool.true_or, if_pos rfl, List.map_cons, ha,
          if_pos rfl]
        unfold findRow
        rw [List.find?_cons_of_pos _ (by rw [bumpParticipant_userId]; exact ha),
          show List.find? (fun p => p.userId == userId) (a :: t) = some a from
            List.find?_cons_of_pos _ ha]
        rfl
      · have ha' : (a.userId == userId) = false := by
          rwa [← Bool.not_eq_true]
        rw [applySession_cons raceId a t userId s now ha']
        unfold findRow
        rw [List.find?_cons_of_neg _ (by rw [ha']; exact Bool.false_ne_true),
          List.find?_cons_of_neg _ (by rw [ha']; exact Bool.false_ne_true)]
        exact ih

theorem mkSession_netProfit (raceId : String) (input : SessionInput) (now : ℚ)
    (rnd : String) :
    (mkSession raceId input now rnd).netProfit =
      max 0 (input.winAmount - input.betAmount) := by
  show (if 0 < jsSub input.winAmount input.betAmount
      then jsSub input.winAmount input.betAmount else 0) = _
  rw [jsSub_eq]
  by_cases h : 0 < input.winAmount - input.betAmount
  · rw [if_pos h, max_eq_right h.le]
  · rw [if_neg h, max_eq_left (le_of_not_lt h)]

theorem bumpParticipant_fields (p : Participant) (raceId : String)
    (input : SessionInput) (now' now : ℚ) (rnd : String) :
    (bumpParticipant p (mkSession raceId input now' rnd) now).totalBetAmount =
        p.totalBetAmount + input.betAmount ∧
    (bumpParticipant p (mkSession raceId input now' rnd) now).totalWinAmount =
        p.totalWinAmount + input.winAmount ∧
    (bumpParticipant p (mkSession raceId input now' rnd) now).netProfit =
        p.netProfit + max 0 (input.winAmount - input.betAmount) ∧
    (bumpParticipant p (mkSession raceId input now' rnd) now).contributionToPool =
        p.contributionToPool + max 0 input.winAmount * (1 / 100) ∧
    (bumpParticipant p (mkSession raceId input now' rnd) now).sessionCount =
        p.sessionCount + 1 := by
  have hmk : (mkRat 1 100 : ℚ) = 1 / 100 := by
    rw [Rat.mkRat_eq_div]
    norm_num
  refine ⟨jsAdd_eq _ _, jsAdd_eq _ _, ?_, ?_, rfl⟩
  · show jsAdd p.netProfit (mkSession raceId input now' rnd).netProfit = _
    rw [mkSession_netProfit, jsAdd_eq]
  · show jsAdd p.contributionToPool
      (jsMul (jsMax 0 (mkSession raceId input now' rnd).winAmount) (mkRat 1 100)) = _
    rw [jsAdd_eq, jsMul_eq, jsMax_eq, hmk]
    rfl

theorem maintainTop1000_subset (l : List Participant) :
    ∀ p ∈ maintainTop1000 l, p ∈ l := by
  intro p hp
  rw [maintainTop1000] at hp
  by_cases h : l.length ≤ 1000
  · rwa [if_pos h] at hp
  · rw [if_neg h] at hp
    exact (List.mem_filter.mp hp).1

theorem rowInv_applySession (raceId : String) (l : List Participant)
    (userId : String) (s : Session) (now : ℚ)
    (hl : ∀ p ∈ l, rowInv p) (hs : 0 ≤ s.netProfit) :
    ∀ p ∈ applySessionToParticipants raceId l userId s now, rowInv p := by
  intro p hp
  unfold applySessionToParticipants at hp
  rcases List.mem_map.mp hp with ⟨q, hq_mem, hq_eq⟩
  have hq_pre : (q ∈ l ∧ 0 ≤ q.contributionToPool ∧ 0 ≤ q.netProfit ∧
      1 ≤ q.sessionCount) ∨
      (q = freshParticipant raceId userId now ∧ 0 ≤ q.contributionToPool ∧
        0 ≤ q.netProfit) := by
    by_cases hany : l.any fun r => r.userId == userId
    · rw [if_pos hany] at hq_mem
      exact Or.inl ⟨hq_mem, hl q hq_mem⟩
    · rw [if_neg hany] at hq_mem
      rcases List.mem_append.mp hq_mem with h | h
      · exact Or.inl ⟨h, hl q h⟩
      · rcases List.mem_singleton.mp h with rfl
        exact Or.inr ⟨rfl, le_refl 0, le_refl 0⟩
  by_cases hqu : (q.userId == userId) = true
  · rw [if_pos hqu] at hq_eq
    subst hq_eq
    have hc : 0 ≤ q.contributionToPool := by
      rcases hq_pre with ⟨_, h, _, _⟩ | ⟨_, h, _⟩ <;> exact h
    have hn : 0 ≤ q.netProfit := by
      rcases hq_pre with ⟨_, _, h, _⟩ | ⟨_, _, h⟩ <;> exact h
    refine ⟨?_, ?_, ?_⟩
    · show 0 ≤ jsAdd q.contributionToPool (jsMul (jsMax 0 s.winAmount) (mkRat 1 100))
      rw [jsAdd_eq, jsMul_eq, jsMax_eq]
      have : (0 : ℚ) ≤ mkRat 1 100 := by decide
      positivity
    · show 0 ≤ jsAdd q.netProfit s.netProfit
      rw [jsAdd_eq]
      exact add_nonneg hn hs
    · show 1 ≤ q.sessionCount + 1
      omega
  · rw [if_neg hqu] at hq_eq
    subst hq_eq
    rcases hq_pre with ⟨_, h1, h2, h3⟩ | ⟨hq, _⟩
    · exact ⟨h1, h2, h3⟩
    · refine absurd ?_ hqu
      rw [hq, freshParticipant_userId]
      exact beq_self_eq_true userId

/-- **C3.**  `addSession` while a current race is set: the stored session's
derived `netProfit` is `max(0, winAmount - betAmount)`; the caller's row in
the updated table is the old row (or a fresh zero row) with `betAmount`,
`winAmount`, the derived net profit and `max(0, winAmount) × 0.01` added to
its accumulators and `sessionCount` bumped by one; when the updated table is
within the cap no row is evicted; and every row of the resulting table
satisfies `contributionToPool ≥ 0`, `netProfit ≥ 0`, `sessionCount ≥ 1`. -/
theorem c3_addSession_row_update (c : GameSessionCache) (input : SessionInput)
    (now : ℚ) (rnd : String) (raceId : String)
    (hrace : c.currentRaceId = some raceId)
    (hinv : ∀ p ∈ participantsOf c raceId, rowInv p) :
    (addSession c input now rnd).1 = some (mkSession raceId input now rnd) ∧
    (mkSession raceId input now rnd).netProfit =
      max 0 (input.winAmount - input.betAmount) ∧
    findRow (applySessionToParticipants raceId (participantsOf c raceId)
        input.userId (mkSession raceId input now rnd) now) input.userId =
      some (bumpParticipant ((findRow (participantsOf c raceId)
        input.userId).getD (freshParticipant raceId input.userId now))
        (mkSession raceId input now rnd) now) ∧
    (∀ p : Participant,
      (bumpParticipant p (mkSession raceId input now rnd) now).totalBetAmount =
          p.totalBetAmount + input.betAmount ∧
      (bumpParticipant p (mkSession raceId input now rnd) now).totalWinAmount =
          p.totalWinAmount + input.winAmount ∧
      (bumpParticipant p (mkSession raceId input now rnd) now).netProfit =
          p.netProfit + max 0 (input.winAmount - input.betAmount) ∧
      (bumpParticipant p (mkSession raceId input now rnd) now).contributionToPool
          = p.contributionToPool + max 0 input.winAmount * (1 / 100) ∧
      (bumpParticipant p (mkSession raceId input now rnd) now).sessionCount =
          p.sessionCount + 1) ∧
    ((applySessionToParticipants raceId (participantsOf c raceId) input.userId
        (mkSession raceId input now rnd) now).length ≤ 1000 →
      participantsOf (addSession c input now rnd).2 raceId =
        applySessionToParticipants raceId (participantsOf c raceId)
          input.userId (mkSession raceId input now rnd) now) ∧
    (∀ p ∈ participantsOf (addSession c input now rnd).2 raceId, rowInv p) := by
  have h1 : participantsOf (addSession c input now rnd).2 raceId =
      updateRaceParticipant raceId (participantsOf c raceId) input.userId
        (mkSession raceId input now rnd) now := by
    simp only [addSession, hrace]
    unfold participantsOf
    rw [mapLookup_mapSet]
    rfl
  refine ⟨by simp only [addSession, hrace], mkSession_netProfit _ _ _ _,
    findRow_applySession _ _ _ _ _,
    fun p => bumpParticipant_fields p raceId input now now rnd, ?_, ?_⟩
  · intro hlen
    rw [h1]
    unfold updateRaceParticipant
    exact maintainTop1000_of_le _ hlen
  · intro p hp
    rw [h1] at hp
    unfold updateRaceParticipant at hp
    exact rowInv_applySession raceId _ input.userId _ now hinv
      (by rw [mkSession_netProfit]; exact le_max_left 0 _) p
      (maintainTop1000_subset _ p hp)

/-- Witness for C3 at a concrete input. -/
theorem c3_addSession_row_update_witness :
    (addSession (setCurrentRace initialCache "race_w")
        ⟨"user0002", 10, 30, 3, true⟩ 7 "r").1 =
      some (mkSession "race_w" ⟨"user0002", 10, 30, 3, true⟩ 7 "r") :=
  (c3_addSession_row_update (setCurrentRace initialCache "race_w")
    ⟨"user0002", 10, 30, 3, true⟩ 7 "r" "race_w" (by decide) (by decide)).1

/-! ### Override consumption (claims C4 and C10) -/

theorem find?_eraseP_of_unique {α : Type} (P : α → Bool) (l : List α)
    (h : (l.filter P).length ≤ 1) : (l.eraseP P).find? P = none := by
  induction l with
  | nil => rfl
  | cons a t ih =>
    by_cases hp : P a = true
    · rw [List.eraseP_cons_of_pos hp]
      rw [List.find?_eq_none]
      intro x hx hPx
      have hx_f : x ∈ t.filter P := List.mem_filter.mpr ⟨hx, hPx⟩
      have : (t.filter P).length = 0 := by
        rw [List.filter_cons_of_pos hp, List.length_cons] at h
        omega
      rw [List.length_eq_zero] at this
      rw [this] at hx_f
      cases hx_f
    · rw [List.eraseP_cons_of_neg hp, List.find?_cons_of_neg _ hp]
      refine ih ?_
      rwa [List.filter_cons_of_neg hp] at h

/-- **C4.**  For a valid request `(userId, betAmount)` with no persistence
failure: the handler returns the stored multiplier with `isUserCustom = true`
and deletes the record exactly when a record for `userId` exists with
`nextCrashMultiplier > 0` and `nextBetAmount = betAmount`; in every other
case the store is unchanged and the random multiplier is returned with
`isUserCustom = false`; and an immediately repeated call with the same pair
returns the random multiplier with `isUserCustom = false`. -/
theorem c4_consume_if_match (store : List UserGameSettings) (rand rand2 : ℚ)
    (userId : String) (betAmount : ℚ)
    (hu : 8 ≤ userId.length ∧ userId.length ≤ 50)
    (hb : 1 ≤ betAmount ∧ betAmount ≤ 999999999)
    (huniq : (store.filter fun t => t.userId == userId).length ≤ 1) :
    (∀ s, (store.find? fun t => t.userId == userId) = some s →
      0 < s.nextCrashMultiplier → s.nextBetAmount = betAmount →
      aiCrashMultiplierHandler store false false rand userId betAmount =
        (.ok s.nextCrashMultiplier true,
         store.eraseP fun t => t.userId == userId)) ∧
    ((store.find? fun t => t.userId == userId) = none →
      aiCrashMultiplierHandler store false false rand userId betAmount =
        (.ok rand false, store)) ∧
    (∀ s, (store.find? fun t => t.userId == userId) = some s →
      ¬(0 < s.nextCrashMultiplier ∧ s.nextBetAmount = betAmount) →
      aiCrashMultiplierHandler store false false rand userId betAmount =
        (.ok rand false, store)) ∧
    (∀ s, (store.find? fun t => t.userId == userId) = some s →
      0 < s.nextCrashMultiplier → s.nextBetAmount = betAmount →
      (aiCrashMultiplierHandler (store.eraseP fun t => t.userId == userId)
        false false rand2 userId betAmount) =
        (.ok rand2 false, store.eraseP fun t => t.userId == userId)) := by
  have hvu : ¬(userId.length < 8 ∨ 50 < userId.length) := by omega
  have hvb : ¬(betAmount < 1 ∨ 999999999 < betAmount) := by
    rcases hb with ⟨h1, h2⟩
    rintro (h | h) <;> linarith
  refine ⟨?_, ?_, ?_, ?_⟩
  · intro s hfind hmul hbet
    have hpos : 0 < s.nextBetAmount := by
      rw [hbet]
      exact lt_of_lt_of_le one_pos hb.1
    rw [aiCrashMultiplierHandler, if_neg hvu, if_neg hvb, if_neg (by simp),
      hfind]
    dsimp only
    rw [if_pos ⟨hmul, hpos⟩, if_pos hbet.symm, if_neg (by simp)]
  · intro hfind
    rw [aiCrashMultiplierHandler, if_neg hvu, if_neg hvb, if_neg (by simp),
      hfind]
  · intro s hfind hnot
    rw [aiCrashMultiplierHandler, if_neg hvu, if_neg hvb, if_neg (by simp),
      hfind]
    dsimp only
    by_cases hcond : 0 < s.nextCrashMultiplier ∧ 0 < s.nextBetAmount
    · rw [if_pos hcond, if_neg ?_]
      intro heq
      exact hnot ⟨hcond.1, heq.symm⟩
    · rw [if_neg hcond]
  · intro s hfind hmul hbet
    have hnone : ((store.eraseP fun t => t.userId == userId).find?
        fun t => t.userId == userId) = none :=
      find?_eraseP_of_unique _ store huniq
    rw [aiCrashMultiplierHandler, if_neg hvu, if_neg hvb, if_neg (by simp),
      hnone]

/-- Witness for C4: the S3 scenario.  The override `(100, 7.5)` for
`user0001` is consumed by a bet of 100 and the record is deleted. -/
theorem c4_consume_if_match_witness :
    aiCrashMultiplierHandler [⟨"user0001", 100, mkRat 15 2⟩] false false 2
        "user0001" 100 =
      (.ok (mkRat 15 2) true, []) :=
  (c4_consume_if_match [⟨"user0001", 100, mkRat 15 2⟩] 2 3 "user0001" 100
    (by decide) (by decide) (by decide)).1 ⟨"user0001", 100, mkRat 15 2⟩
    (by decide) (by decide) (by decide)

/-- **C10 (counterexample).**  When the post-match deletion fails, the
handler does NOT return a random multiplier with `isUserCustom = false`: the
`deleteError` catch is swallowed, so the response carries the stored custom
multiplier 7.5 with `isUserCustom = true` (and the record stays). -/
theorem c10_counterexample :
    aiCrashMultiplierHandler [⟨"user0001", 100, mkRat 15 2⟩] false true 2
        "user0001" 100 =
      (.ok (mkRat 15 2) true, [⟨"user0001", 100, mkRat 15 2⟩]) ∧
    (mkRat 15 2 : ℚ) ≠ 2 ∧ (.ok (mkRat 15 2) true : AiResponse) ≠ .ok 2 false := by
  decide

/-- **C10 (amended).**  For a valid request: a lookup failure yields HTTP 200
with the random multiplier, `isUserCustom = false`, and the store untouched
(no override consumed); a post-match deletion failure yields HTTP 200 with
the stored custom multiplier, `isUserCustom = true`, and the record retained;
and no combination of persistence failures produces a non-200 status. -/
theorem c10_persistence_fallback (store : List UserGameSettings) (rand : ℚ)
    (userId : String) (betAmount : ℚ) (df : Bool)
    (hu : 8 ≤ userId.length ∧ userId.length ≤ 50)
    (hb : 1 ≤ betAmount ∧ betAmount ≤ 999999999) :
    (aiCrashMultiplierHandler store true df rand userId betAmount =
      (.ok rand false, store)) ∧
    (∀ s, (store.find? fun t => t.userId == userId) = some s →
      0 < s.nextCrashMultiplier → s.nextBetAmount = betAmount →
      aiCrashMultiplierHandler store false true rand userId betAmount =
        (.ok s.nextCrashMultiplier true, store)) ∧
    (∀ lf df' : Bool,
      (aiCrashMultiplierHandler store lf df' rand userId betAmount).1.status
        = 200) := by
  have hvu : ¬(userId.length < 8 ∨ 50 < userId.length) := by omega
  have hvb : ¬(betAmount < 1 ∨ 999999999 < betAmount) := by
    rcases hb with ⟨h1, h2⟩
    rintro (h | h) <;> linarith
  refine ⟨?_, ?_, ?_⟩
  · rw [aiCrashMultiplierHandler, if_neg hvu, if_neg hvb, if_pos rfl]
  · intro s hfind hmul hbet
    have hpos : 0 < s.nextBetAmount := by
      rw [hbet]
      exact lt_of_lt_of_le one_pos hb.1
    rw [aiCrashMultiplierHandler, if_neg hvu, if_neg hvb, if_neg (by simp),
      hfind]
    dsimp only
    rw [if_pos ⟨hmul, hpos⟩, if_pos hbet.symm, if_pos rfl]
  · intro lf df'
    rw [aiCrashMultiplierHandler, if_neg hvu, if_neg hvb]
    by_cases hlf : lf = true
    · rw [if_pos hlf]
      rfl
    · rw [if_neg hlf]
      cases hfind : store.find? fun t => t.userId == userId with
      | none => rfl
      | some s =>
          dsimp only
          by_cases h1 : 0 < s.nextCrashMultiplier ∧ 0 < s.nextBetAmount
          · rw [if_pos h1]
            by_cases h2 : betAmount = s.nextBetAmount
            · rw [if_pos h2]
              by_cases h3 : df' = true
              · rw [if_pos h3]
                rfl
              · rw [if_neg h3]
                rfl
            · rw [if_neg h2]
              rfl
          · rw [if_neg h1]
            rfl

/-- Witness for C10 (amended): lookup failure on the S3 store still yields
the random multiplier with the store unchanged. -/
theorem c10_persistence_fallback_witness :
    aiCrashMultiplierHandler [⟨"user0001", 100, mkRat 15 2⟩] true false 2
        "user0001" 100 =
      (.ok 2 false, [⟨"user0001", 100, mkRat 15 2⟩]) :=
  (c10_persistence_fallback [⟨"user0001", 100, mkRat 15 2⟩] 2 "user0001" 100
    false (by decide) (by decide)).1

/-! ### Round phase transitions (claim C5) -/

/-- **C5.**  When the gaming countdown elapses (the armed gaming timer
fires): with `autoStart` the machine enters the betting phase, increments
`round` by exactly one, assigns the freshly generated game id and arms
exactly the betting timer; without `autoStart` it goes idle with no timer;
moreover every transition clears the previous timers before arming its own
single timer, so at most one phase timer is ever pending. -/
theorem c5_gaming_elapsed (cfg : CountdownConfig) (s : CountdownState)
    (now : ℚ) (rnd : String)
    (htimer : s.timers = [TimerKind.gamingTimeout]) :
    (cfg.autoStart = true →
      fireTimer cfg s .gamingTimeout now rnd =
        { phase := .betting, isCountingDown := true
          countdownStartTime := some now
          countdownEndTime := some (jsAdd now cfg.bettingCountdown)
          gameId := some (mkGameId now rnd), round := s.round + 1
          timers := [.bettingTimeout] }) ∧
    (cfg.autoStart = false →
      (fireTimer cfg s .gamingTimeout now rnd).phase = .idle ∧
      (fireTimer cfg s .gamingTimeout now rnd).isCountingDown = false ∧
      (fireTimer cfg s .gamingTimeout now rnd).timers = []) ∧
    (∀ s' : CountdownState,
      (startBettingCountdown cfg s' now rnd).timers = [.bettingTimeout] ∧
      (startGameCountdown cfg s' now).timers = [.gamingTimeout]) ∧
    (fireTimer cfg s .gamingTimeout now rnd).timers.length ≤ 1 := by
  have herase : s.timers.erase .gamingTimeout = [] := by
    rw [htimer]
    rfl
  refine ⟨?_, ?_, fun s' => ⟨rfl, rfl⟩, ?_⟩
  · intro hauto
    rw [fireTimer, onGameCountdownFinished, if_pos (by rw [hauto])]
    rw [startBettingCountdown]
    rfl
  · intro hauto
    rw [fireTimer, onGameCountdownFinished, if_neg (by rw [hauto]; exact
      Bool.false_ne_true)]
    exact ⟨rfl, rfl, herase⟩
  · rw [fireTimer, onGameCountdownFinished]
    by_cases h : cfg.autoStart = true
    · rw [if_pos h]
      rfl
    · rw [if_neg h]
      show (s.timers.erase .gamingTimeout).length ≤ 1
      rw [herase]
      decide

/-- Witness for C5: the gaming timer of a just-started gaming phase fires
under the default (auto-start) configuration. -/
theorem c5_gaming_elapsed_witness :
    fireTimer defaultConfig
        (startGameCountdown defaultConfig initialCountdownState 0)
        .gamingTimeout 60000 "r" =
      { phase := .betting, isCountingDown := true
        countdownStartTime := some 60000
        countdownEndTime := some (jsAdd 60000 defaultConfig.bettingCountdown)
        gameId := some (mkGameId 60000 "r")
        round := (startGameCountdown defaultConfig initialCountdownState 0).round + 1
        timers := [.bettingTimeout] } :=
  (c5_gaming_elapsed defaultConfig
    (startGameCountdown defaultConfig initialCountdownState 0) 60000 "r"
    (by decide)).1 rfl

/-! ### Countdown configuration validation (claims C9) -/

/-- **C9 (counterexample).**  A supplied `bettingCountdown` of `0` lies
outside `[5000, 1800000]`, yet `updateConfig` raises no error: `0` is falsy,
so the JS guard `newConfig.bettingCountdown && (...)` skips the range check
and the merge stores `0`. -/
theorem c9_counterexample :
    (0 : ℚ) < 5000 ∧
    updateConfig defaultConfig { bettingCountdown := some 0 } =
      .ok { bettingCountdown := 0, gameCountdown := 60000, autoStart := true
            fixedCrashMultiplier := 0 } := by
  constructor
  · norm_num
  · rfl

/-- **C9 (amended).**  `updateConfig` raises a validation error — leaving the
stored configuration unchanged — when a supplied NONZERO `bettingCountdown`
or `gameCountdown` lies outside `[5000, 1800000]` (a supplied `0` is falsy in
the guard, slips past the check and is stored), and when a supplied
`fixedCrashMultiplier` is positive and outside `[1.01, 1000]`; a
`fixedCrashMultiplier ≤ 0` is accepted and stored (random mode), and an
in-range countdown is accepted and stored. -/
theorem c9_updateConfig_validation (cfg : CountdownConfig) (v : ℚ) :
    (v ≠ 0 → v < 5000 ∨ 1800000 < v →
      applyUpdateConfig cfg { bettingCountdown := some v } =
        (cfg, some "Betting countdown must be between 5 seconds and 30 minutes")) ∧
    (v ≠ 0 → v < 5000 ∨ 1800000 < v →
      applyUpdateConfig cfg { gameCountdown := some v } =
        (cfg, some "Game countdown must be between 5 seconds and 30 minutes")) ∧
    (0 < v → v < mkRat 101 100 ∨ 1000 < v →
      applyUpdateConfig cfg { fixedCrashMultiplier := some v } =
        (cfg, some "Fixed crash multiplier must be between 1.01 and 1000.00, or <= 0 for random")) ∧
    (v ≤ 0 →
      applyUpdateConfig cfg { fixedCrashMultiplier := some v } =
        ({ cfg with fixedCrashMultiplier := v }, none)) ∧
    (5000 ≤ v → v ≤ 1800000 →
      applyUpdateConfig cfg { bettingCountdown := some v } =
        ({ cfg with bettingCountdown := v }, none)) := by
  refine ⟨?_, ?_, ?_, ?_, ?_⟩
  · intro hne hout
    have hbad : badCountdownValue (some v) = true := by
      simp [badCountdownValue, bne_iff_ne, hne]
      rcases hout with h | h
      · exact Or.inl h
      · exact Or.inr h
    rw [applyUpdateConfig, updateConfig]
    rw [if_pos hbad]
  · intro hne hout
    have hbad : badCountdownValue (some v) = true := by
      simp [badCountdownValue, bne_iff_ne, hne]
      rcases hout with h | h
      · exact Or.inl h
      · exact Or.inr h
    rw [applyUpdateConfig, updateConfig]
    rw [if_neg (by simp [badCountdownValue]), if_pos hbad]
  · intro hpos hout
    have hbad : badFixedValue (some v) = true := by
      simp [badFixedValue, hpos]
      rcases hout with h | h
      · exact Or.inl h
      · exact Or.inr h
    rw [applyUpdateConfig, updateConfig]
    rw [if_neg (by simp [badCountdownValue]), if_neg (by simp [badCountdownValue]),
      if_pos hbad]
  · intro hle
    have hok : badFixedValue (some v) = false := by
      simp [badFixedValue]
      intro h
      exact absurd h (not_lt.mpr hle)
    rw [applyUpdateConfig, updateConfig]
    rw [if_neg (by simp [badCountdownValue]), if_neg (by simp [badCountdownValue]),
      if_neg (by rw [hok]; exact Bool.false_ne_true)]
    rfl
  · intro h1 h2
    have hok : badCountdownValue (some v) = false := by
      simp [badCountdownValue]
      intro hne
      exact ⟨h1, h2⟩
    rw [applyUpdateConfig, updateConfig]
    rw [if_neg (by rw [hok]; exact Bool.false_ne_true),
      if_neg (by simp [badCountdownValue]), if_neg (by simp [badFixedValue])]
    rfl

/-- Witness for C9 (amended): a 2000000 ms betting countdown (outside the
range) is rejected and the default configuration is kept. -/
theorem c9_updateConfig_validation_witness :
    applyUpdateConfig defaultConfig { bettingCountdown := some 2000000 } =
      (defaultConfig,
       some "Betting countdown must be between 5 seconds and 30 minutes") :=
  (c9_updateConfig_validation defaultConfig 2000000).1 (by norm_num)
    (Or.inr (by norm_num))

/-! ### Prize claiming (claim C6) -/

/-- **C6.**  Claiming a `pending` prize owned by `userId` succeeds: the
stored record becomes `claimed` with `claimedAt = now` and the owning user's
balance grows by `prizeAmount`.  Claiming a non-`pending` prize fails with
HTTP 400 and leaves the record and the balance untouched.  The
`pending → claimed` transition is irreversible: on a `claimed` record both
the route and the model method leave the record exactly as it is. -/
theorem c6_claim_prize (p : RacePrize) (userId : String) (u : User) (now : ℚ) :
    (p.userId = userId → p.status = .pending →
      claimPrizeHandler (some p) userId (some u) now =
        (.ok p.prizeAmount now,
         some { p with status := .claimed, claimedAt := some now },
         some { u with balance := u.balance + p.prizeAmount })) ∧
    (p.userId = userId → p.status ≠ .pending →
      claimPrizeHandler (some p) userId (some u) now =
        (.notPending, some p, some u) ∧
      (claimPrizeHandler (some p) userId (some u) now).1.status = 400) ∧
    (∀ user : Option User, p.status = .claimed →
      (claimPrizeHandler (some p) userId user now).2.1 = some p) ∧
    (p.status = .claimed → p.claim now = .error "Prize already claimed") := by
  refine ⟨?_, ?_, ?_, ?_⟩
  · intro hown hpend
    rw [claimPrizeHandler]
    rw [if_neg (by rw [hown]; exact fun h => h rfl),
      if_neg (by rw [hpend]; exact fun h => h rfl)]
    rw [RacePrize.claim, if_neg (by rw [hpend]; exact fun h => h rfl)]
    dsimp only
    rw [jsAdd_eq]
  · intro hown hnp
    constructor
    · rw [claimPrizeHandler]
      rw [if_neg (by rw [hown]; exact fun h => h rfl), if_pos hnp]
    · rw [claimPrizeHandler]
      rw [if_neg (by rw [hown]; exact fun h => h rfl), if_pos hnp]
      rfl
  · intro user hclaimed
    rw [claimPrizeHandler]
    by_cases hown : p.userId ≠ userId
    · rw [if_pos hown]
    · rw [if_neg hown, if_pos (by rw [hclaimed]; exact fun h => nomatch h)]
  · intro hclaimed
    rw [RacePrize.claim, if_pos (by rw [hclaimed]; exact fun h => nomatch h)]

/-- Witness for C6: user `user0004` claims their pending 25000-coin prize. -/
theorem c6_claim_prize_witness :
    claimPrizeHandler
        (some ⟨"race_w", "user0004", 1, 25000, mkRat 1 2, .pending, none⟩)
        "user0004" (some ⟨"user0004", 100⟩) 42 =
      (.ok 25000 42,
       some ⟨"race_w", "user0004", 1, 25000, mkRat 1 2, .claimed, some 42⟩,
       some ⟨"user0004", (100 : ℚ) + 25000⟩) :=
  (c6_claim_prize ⟨"race_w", "user0004", 1, 25000, mkRat 1 2, .pending, none⟩
    "user0004" ⟨"user0004", 100⟩ 42).1 rfl rfl

/-! ### Race-record completion (claim C7) -/

/-- **C7 (code bug).**  `endRaceById` computes a prize pool (50000 on the S2
table, with 11 leaderboard rows) but the update it performs on the race
record stores NONE of it: the call site passes one object where
`raceSchema.methods.complete` expects `(prizePool, participantCount)`, so
`finalPrizePool` and `finalContribution` are assigned `undefined` and
`totalParticipants` falls back to `0`.  Only `status`, `actualEndTime` and
`finalizedAt` are set as the spec describes. -/
theorem c7_complete_argument_mismatch :
    (calculateRacePrizePool (some s2Table)).totalPool = 50000 ∧
    (getRaceLeaderboardSorted s2Table 1000).length = 11 ∧
    ∀ (r : RaceRecord) (now : ℚ),
      (endRaceCompleteStep r now).status = .completed ∧
      (endRaceCompleteStep r now).actualEndTime = some now ∧
      (endRaceCompleteStep r now).finalizedAt = some now ∧
      (endRaceCompleteStep r now).finalPrizePool = none ∧
      (endRaceCompleteStep r now).finalContribution = none ∧
      (endRaceCompleteStep r now).totalParticipants = 0 := by
  refine ⟨by decide, by decide, ?_⟩
  intro r now
  exact ⟨rfl, rfl, rfl, rfl, rfl, rfl⟩

/-! ### Global statistics (claim C8) -/

/-- **C8 (code bug).**  `getGlobalStats` reads `this.globalSessions`, a
property the class never declares or assigns; it is `undefined` in the
constructed state and stays `undefined` through `setCurrentRace` and
`addSession`, so every call throws a `TypeError` instead of returning the
rolling 24-hour statistics the spec describes. -/
theorem c8_getGlobalStats_throws :
    (∀ (c : GameSessionCache) (now : ℚ), c.globalSessions = none →
      getGlobalStats c now =
        .error (.typeError "Cannot read properties of undefined (reading filter)")) ∧
    initialCache.globalSessions = none ∧
    (∀ (c : GameSessionCache) (raceId : String),
      (setCurrentRace c raceId).globalSessions = c.globalSessions) ∧
    (∀ (c : GameSessionCache) (input : SessionInput) (now : ℚ) (rnd : String),
      (addSession c input now rnd).2.globalSessions = c.globalSessions) := by
  refine ⟨?_, rfl, ?_, ?_⟩
  · intro c now hc
    rw [getGlobalStats, hc]
  · intro c raceId
    rw [setCurrentRace]
    dsimp only
    by_cases h1 : (mapLookup c.raceSessions raceId).isSome
    · rw [if_pos h1]
      by_cases h2 : (mapLookup c.raceParticipants raceId).isSome
      · rw [if_pos h2]
      · rw [if_neg h2]
    · rw [if_neg h1]
      by_cases h2 : (mapLookup c.raceParticipants raceId).isSome
      · rw [if_pos h2]
      · rw [if_neg h2]
  · intro c input now rnd
    cases hc : c.currentRaceId with
    | none => simp [addSession, hc]
    | some raceId => simp [addSession, hc]

/-- Witness for C8: the state after one `setCurrentRace` and one
`addSession` still throws. -/
theorem c8_getGlobalStats_throws_witness :
    getGlobalStats
        (addSession (setCurrentRace initialCache "race_w")
          ⟨"user0003", 10, 0, 1, false⟩ 3 "r").2 9 =
      .error (.typeError "Cannot read properties of undefined (reading filter)") :=
  c8_getGlobalStats_throws.1
    (addSession (setCurrentRace initialCache "race_w")
      ⟨"user0003", 10, 0, 1, false⟩ 3 "r").2 9 (by decide)

end DogCrash
